import Mathlib

/-!
Verification of the resource-fetcher core of the compliance-operator
(`cmd/manager` data-stream resource fetcher).

The Go source is shallowly embedded:

* Go `map` values are modelled as association lists; where the program
  iterates over a map, the list order stands for the (unspecified) Go map
  iteration order and is an explicit parameter of the embedding.
* Byte slices holding fetched payloads are modelled by `Content`: either a
  parsed JSON document (`Content.json`) or a raw textual payload
  (`Content.raw`, e.g. the `# kube-api-error=` markers), since every
  operation performed on payload bytes in the source is either opaque
  storage or JSON-level (un)marshalling.
* XML documents are modelled by `XNode` trees; the only `xmlquery`
  operations the source uses are subtree search by element name
  (`SelectElements`/`Find` with a `//ns:name` expression, which the
  `xmlquery` navigator evaluates relative to the node it is invoked on),
  first-attribute lookup (`SelectAttr`, empty string when absent) and
  inner-XML serialization (`OutputXML(false)`); text is stored already
  HTML-unescaped, so `html.UnescapeString` composed with serialization is
  the plain serialization below.
* The cluster client, the `gojq` engine and the `jsondiff` library are
  external collaborators; they enter as explicit parameters
  (`streamDispatcher`-style functions) or as contracts
  (`compareJSONNil`: diff is nil iff the two documents are structurally
  equal as JSON values).
-/

/-! ### String helpers (Go `strings` / byte-level operations) -/

def strStartsWith (s pfx : String) : Bool :=
  pfx.data.isPrefixOf s.data

def strDropPfx (s pfx : String) : String :=
  String.mk (s.data.drop pfx.data.length)

def slashFree (s : String) : Bool :=
  s.data.all (fun c => c ≠ '/')

def splitOnChar (sep : Char) : List Char → List (List Char)
  | [] => [[]]
  | c :: rest =>
    let r := splitOnChar sep rest
    if c = sep then [] :: r
    else
      match r with
      | h :: t => (c :: h) :: t
      | [] => [[c]]

/-- Go `strings.Split(s, "/")`. -/
def splitSlash (s : String) : List String :=
  (splitOnChar '/' s.data).map String.mk

/-! ### Association lists standing for Go maps -/

def assocLookup {α : Type} (m : List (String × α)) (k : String) : Option α :=
  (m.find? (fun p => p.1 = k)).map (fun p => p.2)

def assocHasKey {α : Type} (m : List (String × α)) (k : String) : Bool :=
  m.any (fun p => p.1 = k)

/-- Go map assignment `m[k] = v`: replace the binding if the key is present,
otherwise add a new binding. -/
def assocInsert {α : Type} (m : List (String × α)) (k : String) (v : α) : List (String × α) :=
  if assocHasKey m k then m.map (fun p => if p.1 = k then (k, v) else p)
  else m ++ [(k, v)]

/-! ### JSON values

Payloads fetched from the cluster are compared and intersected at the JSON
level (`jsondiff.CompareJSON`, `utils.JSONIntersection`).  JSON documents
produced by `encoding/json` unmarshalling have unique keys in every object.
-/

inductive Json where
  | null
  | boolv (b : Bool)
  | num (n : Int)
  | str (s : String)
  | arr (elems : List Json)
  | obj (fields : List (String × Json))

mutual

/-- Structural (order-insensitive for object members) equality of JSON
documents: the contract of a nil `jsondiff.CompareJSON` diff.  An object
equals another iff every member of the first matches a member of the second
and the second has no extra keys. -/
def structEq : Json → Json → Bool
  | .null, .null => true
  | .boolv a, .boolv b => a == b
  | .num a, .num b => a == b
  | .str a, .str b => a == b
  | .arr as, .arr bs => structEqArr as bs
  | .obj a, .obj b => structEqSub a b && b.all (fun p => assocHasKey a p.1)
  | _, _ => false
termination_by structural j _ => j

def structEqArr : List Json → List Json → Bool
  | [], [] => true
  | a :: as, b :: bs => structEq a b && structEqArr as bs
  | _, _ => false
termination_by structural l _ => l

/-- Every member of the first field list is present, with a structurally
equal value, in the second. -/
def structEqSub : List (String × Json) → List (String × Json) → Bool
  | [], _ => true
  | (k, v) :: rest, b =>
    (match assocLookup b k with
     | some w => structEq v w
     | none => false) && structEqSub rest b
termination_by structural l _ => l

end

mutual

def jsonToString : Json → String
  | .null => "null"
  | .boolv b => if b then "true" else "false"
  | .num n => toString n
  | .str s => "\"" ++ s ++ "\""
  | .arr xs => "[" ++ jsonListToString xs ++ "]"
  | .obj fs => "\x7b" ++ jsonFieldsToString fs ++ "\x7d"
termination_by structural j => j

def jsonListToString : List Json → String
  | [] => ""
  | [x] => jsonToString x
  | x :: xs => jsonToString x ++ "," ++ jsonListToString xs
termination_by structural l => l

def jsonFieldsToString : List (String × Json) → String
  | [] => ""
  | [p] => "\"" ++ p.1 ++ "\":" ++ jsonToString p.2
  | p :: ps => "\"" ++ p.1 ++ "\":" ++ jsonToString p.2 ++ "," ++ jsonFieldsToString ps
termination_by structural l => l

end

/-- A fetched payload: either a JSON document or raw text (such as the
`# kube-api-error=` markers), standing for the byte slices of the source. -/
inductive Content where
  | json (j : Json)
  | raw (s : String)

/-- JSON unmarshalling of a payload; raw textual payloads are not valid
JSON documents. -/
def decodeContent : Content → Option Json
  | .json j => some j
  | .raw _ => none

def contentIsEmpty : Content → Bool
  | .json _ => false
  | .raw s => s.isEmpty

def contentText : Content → String
  | .json j => jsonToString j
  | .raw s => s

/-- Contract of the external `jsondiff.CompareJSON`: fails unless both
payloads are valid JSON, and the diff is nil iff the documents are
structurally equal.  Returns that "diff is nil" Boolean. -/
def compareJSONNil (a b : Content) : Except String Bool :=
  match decodeContent a, decodeContent b with
  | some ja, some jb => .ok (structEq ja jb)
  | _, _ => .error "couldn't compare kubelet configs"

/-- Modelled from the spec: `utils.JSONIntersection` lives in `pkg/utils`,
which is not under src/.  Per the spec (§4.4), the baseline is replaced by
"the structural intersection (only members present and equal in both)":
for two objects, keep exactly the members of the first whose key is present
in the second with a structurally equal value. -/
def jsonIntersectionJ : Json → Json → Except String Json
  | .obj a, .obj b =>
    .ok (.obj (a.filter (fun p =>
      match assocLookup b p.1 with
      | some w => structEq p.2 w
      | none => false)))
  | _, _ => .error "not a JSON object"

def jsonIntersection (a b : Content) : Except String Content :=
  match decodeContent a, decodeContent b with
  | some ja, some jb => (jsonIntersectionJ ja jb).map Content.json
  | _, _ => .error "invalid JSON"

/-! ### Resource paths and constants -/

structure ResourcePath where
  ObjPath : String
  DumpPath : String
  Filter : String
deriving DecidableEq, Repr

def contentValuePfx : String := "xccdf_org.ssgproject.content_value_"

def kubeletConfigPathPfx : String := "/kubeletconfig/"

def kubeletConfigRolePathPfx : String := "/kubeletconfig/role/"

def kubeletConfigFilterExpr : String :=
  ".kubeletconfig|.kind=\"KubeletConfiguration\"|.apiVersion=\"kubelet.config.k8s.io/v1beta1\""

def moreThanOneObjErr : String := "more than one object returned from the filter"

/-! ### XML documents -/

inductive XNode where
  | text (s : String)
  | elem (name : String) (attrs : List (String × String)) (children : List XNode)

mutual

/-- All elements with the given name in the subtree rooted at the node
(including the node itself), in document order — the effect of the
`//xccdf-1.2:name` queries of the source, whose navigator is rooted at the
node the query is invoked on. -/
def descendantsNamed : XNode → String → List XNode
  | .text _, _ => []
  | .elem name attrs children, nm =>
    (if name = nm then [XNode.elem name attrs children] else []) ++
      descendantsNamedL children nm
termination_by structural n _ => n

def descendantsNamedL : List XNode → String → List XNode
  | [], _ => []
  | x :: xs, nm => descendantsNamed x nm ++ descendantsNamedL xs nm
termination_by structural l _ => l

end

/-- `xmlquery`'s `SelectAttr`: value of the first attribute with the given
name, empty string when absent. -/
def selectAttr (n : XNode) (a : String) : String :=
  match n with
  | .text _ => ""
  | .elem _ attrs _ =>
    match attrs.find? (fun p => p.1 = a) with
    | some p => p.2
    | none => ""

def serializeAttrs (attrs : List (String × String)) : String :=
  attrs.foldl (fun s p => s ++ " " ++ p.1 ++ "=\"" ++ p.2 ++ "\"") ""

mutual

def serializeXML : XNode → String
  | .text s => s
  | .elem name attrs children =>
    "<" ++ name ++ serializeAttrs attrs ++ ">" ++ serializeChildren children ++
      "</" ++ name ++ ">"
termination_by structural n => n

def serializeChildren : List XNode → String
  | [] => ""
  | x :: xs => serializeXML x ++ serializeChildren xs
termination_by structural l => l

end

/-- `OutputXML(false)` composed with `html.UnescapeString`: the inner XML of
the node (text is stored unescaped in the model). -/
def innerXML : XNode → String
  | .text s => s
  | .elem _ _ children => serializeChildren children

/-! ### The variable table -/

/-- id → value, a Go `map[string]string` as an association list. -/
abbrev VarTable := List (String × String)

/-- The override loop of `getResourcePaths` (lines 326–333): a key of the
override map only replaces an existing entry of the table and is dropped
otherwise. -/
def applyOverrides (t : VarTable) (o : VarTable) : VarTable :=
  o.foldl (fun acc kv =>
    if (assocLookup acc kv.1).isSome then assocInsert acc kv.1 kv.2 else acc) t

mutual

/-- Variable substitution inside a path directive: occurrences of a
dollar-brace-wrapped variable name are replaced by the table's value. -/
def substVarsAux (vl : VarTable) : List Char → List Char
  | [] => []
  | [c] => [c]
  | c :: b :: rest2 =>
    if c = '$' && b = '\x7b' then scanVarName vl [] rest2
    else c :: substVarsAux vl (b :: rest2)
termination_by structural l => l

def scanVarName (vl : VarTable) (acc : List Char) : List Char → List Char
  | [] => '$' :: '\x7b' :: acc
  | c :: rest =>
    if c = '\x7d' then
      match assocLookup vl (String.mk acc) with
      | some v => v.data ++ substVarsAux vl rest
      | none => '$' :: '\x7b' :: (acc ++ c :: substVarsAux vl rest)
    else scanVarName vl (acc ++ [c]) rest
termination_by structural l => l

end

def substituteVars (s : String) (vl : VarTable) : String :=
  String.mk (substVarsAux vl s.data)

/-! ### Path extraction from rule metadata -/

/-- Modelled from the spec: `utils.GetPathFromWarningXML` lives in
`pkg/utils`, which is not under src/.  Per the spec (§4.2 step 6 and the
documented warning structure), the API endpoint is found in `code` children
of the warning annotation carrying the `ocp-api-endpoint` class, with
variable references substituted from the resolved table; each such endpoint
yields one ResourcePath whose destination key is the endpoint itself and
which carries no filter. -/
def getPathFromWarningXML (warn : XNode) (valueList : VarTable) : List ResourcePath :=
  (descendantsNamed warn "code").foldl (fun acc c =>
    if selectAttr c "class" = "ocp-api-endpoint" then
      let p := substituteVars (innerXML c) valueList
      if p = "" then acc
      else acc ++ [{ ObjPath := p, DumpPath := p, Filter := "" }]
    else acc) []

/-! ### `getResourcePaths` (lines 294–405) -/

/-- Lines 298–324: collect the variable table over both documents — for
every `Value` element's non-hidden, non-selector `value` children register
the prefix-stripped id, then apply the `set-value` overrides (later entries
win). -/
def buildValuesList (profileDefs ruleDefs : XNode) : VarTable :=
  [ruleDefs, profileDefs].foldl (fun acc d =>
    let acc := (descendantsNamed d "Value").foldl (fun acc vr =>
      (descendantsNamed vr "value").foldl (fun acc val =>
        if selectAttr val "hidden" = "true" then acc
        else if selectAttr val "selector" = "" then
          (if strStartsWith (selectAttr vr "id") contentValuePfx then
            assocInsert acc (strDropPfx (selectAttr vr "id") contentValuePfx)
              (innerXML val)
          else acc)
        else acc) acc) acc
    (descendantsNamed d "set-value").foldl (fun acc vr =>
      if strStartsWith (selectAttr vr "idref") contentValuePfx then
        assocInsert acc (strDropPfx (selectAttr vr "idref") contentValuePfx)
          (innerXML vr)
      else acc) acc) []

/-- Lines 335–358: the idrefs of `select` children with `selected="true"`
under every `Profile` element whose id matches, in document order. -/
def selectedCheckIds (profileDefs : XNode) (profile : String) : List String :=
  (descendantsNamed profileDefs "Profile").foldl (fun acc node =>
    if selectAttr node "id" ≠ profile then acc
    else
      acc ++ (descendantsNamed node "select").foldl (fun acc2 check =>
        if selectAttr check "selected" ≠ "true" then acc2
        else if selectAttr check "idref" ≠ "" then acc2 ++ [selectAttr check "idref"]
        else acc2) []) []

/-- Lines 380–396: only the first warning annotation that yields any path
counts. -/
def firstWarningPaths (warnings : List XNode) (vl : VarTable) : List ResourcePath :=
  match warnings with
  | [] => []
  | w :: rest =>
    let apiPaths := getPathFromWarningXML w vl
    if apiPaths.isEmpty then firstWarningPaths rest vl else apiPaths

/-- Lines 360–403: for each selected check, locate the first matching Rule
definition and extract its path directive; a missing rule or a rule without
a path-bearing warning is silently skipped. -/
def pathsForChecks (ruleDefs : XNode) (checks : List String) (vl : VarTable) :
    List ResourcePath :=
  let checkDefinitions := descendantsNamed ruleDefs "Rule"
  if checkDefinitions.isEmpty then []
  else
    checks.foldl (fun out checkID =>
      match checkDefinitions.find? (fun rule => selectAttr rule "id" = checkID) with
      | none => out
      | some found => out ++ firstWarningPaths (descendantsNamed found "warning") vl) []

/-- `getResourcePaths` (lines 294–405): the selected checks' resource paths
together with the resolved variable table. -/
def getResourcePaths (profileDefs ruleDefs : XNode) (profile : String)
    (overrideValueList : Option VarTable) : List ResourcePath × VarTable :=
  let valuesList := buildValuesList profileDefs ruleDefs
  let valuesList :=
    match overrideValueList with
    | some o => applyOverrides valuesList o
    | none => valuesList
  (pathsForChecks ruleDefs (selectedCheckIds profileDefs profile) valuesList, valuesList)

/-- Lines 407–421: the `extends` attribute of the first matching Profile
element that carries a non-empty one; empty string when none does. -/
def getExtendedProfileFromTailoring (ds : XNode) (tailoredProfile : String) : String :=
  match (descendantsNamed ds "Profile").find?
      (fun node => selectAttr node "id" = tailoredProfile &&
        selectAttr node "extends" ≠ "") with
  | some node => selectAttr node "extends"
  | none => ""

/-! ### `FigureResources` (lines 164–226) -/

/-- The always-staged cluster-scoped paths (lines 166–187). -/
def fixedResourcePaths : List ResourcePath :=
  [ { ObjPath := "/version", DumpPath := "/version", Filter := "" },
    { ObjPath := "/apis/config.openshift.io/v1/clusteroperators/openshift-apiserver",
      DumpPath := "/apis/config.openshift.io/v1/clusteroperators/openshift-apiserver",
      Filter := "" },
    { ObjPath := "/apis/config.openshift.io/v1/infrastructures/cluster",
      DumpPath := "/apis/config.openshift.io/v1/infrastructures/cluster", Filter := "" },
    { ObjPath := "/apis/config.openshift.io/v1/networks/cluster",
      DumpPath := "/apis/config.openshift.io/v1/networks/cluster", Filter := "" },
    { ObjPath := "/api/v1/nodes", DumpPath := "/api/v1/nodes", Filter := "" } ]

/-- The kubelet-config resource path staged for one (role, node) pair
(lines 267–271). -/
def kubeletResourcePath (role node : String) : ResourcePath :=
  { ObjPath := "/api/v1/nodes/" ++ node ++ "/proxy/configz",
    DumpPath := kubeletConfigPathPfx ++ role ++ "/" ++ node,
    Filter := kubeletConfigFilterExpr }

/-- `getKubeletConfigResourcePath` (lines 263–275).  The association list
order stands for the Go map iteration order over `roleNodesList`. -/
def getKubeletConfigResourcePath (roleNodesList : List (String × List String)) :
    List ResourcePath :=
  roleNodesList.foldl (fun acc p =>
    acc ++ p.2.map (fun node => kubeletResourcePath p.1 node)) []

/-- `FigureResources` (lines 164–226), with the node→role map (already
derived from cluster node labels by `fetchNodesWithRole`) passed in as an
association list. -/
def figureResources (dataStream : XNode) (tailoring : Option XNode) (profile : String)
    (roleNodesList : List (String × List String)) : List ResourcePath :=
  let found := fixedResourcePaths ++
    (if 0 < roleNodesList.length then getKubeletConfigResourcePath roleNodesList else [])
  match tailoring with
  | some t =>
    let selected := (getResourcePaths t dataStream profile none).1
    let valuesList := (getResourcePaths t dataStream profile none).2
    let found := found ++ selected
    let effectiveProfile := getExtendedProfileFromTailoring t profile
    if effectiveProfile = "" then found
    else found ++ (getResourcePaths dataStream dataStream effectiveProfile
      (some valuesList)).1
  | none => found ++ (getResourcePaths dataStream dataStream profile none).1

/-- The profile/tailoring-derived tail of the discovery result (everything
`FigureResources` appends after the fixed and role-expanded paths). -/
def profileDerivedPaths (dataStream : XNode) (tailoring : Option XNode)
    (profile : String) : List ResourcePath :=
  match tailoring with
  | some t =>
    let selected := (getResourcePaths t dataStream profile none).1
    let valuesList := (getResourcePaths t dataStream profile none).2
    let effectiveProfile := getExtendedProfileFromTailoring t profile
    if effectiveProfile = "" then selected
    else selected ++ (getResourcePaths dataStream dataStream effectiveProfile
      (some valuesList)).1
  | none => (getResourcePaths dataStream dataStream profile none).1

/-- The fixed plus role-expanded prefix of the discovery result. -/
def fixedAndRolePaths (roleNodesList : List (String × List String)) : List ResourcePath :=
  fixedResourcePaths ++
    (if 0 < roleNodesList.length then getKubeletConfigResourcePath roleNodesList else [])

/-! ### Kubelet-config consistency reconciliation (lines 277–290, 596–633) -/

/-- `getRoleNodeNameFromDumpPath` (lines 277–290). -/
def getRoleNodeNameFromDumpPath (dumpPath : String) : String × String :=
  if strStartsWith dumpPath kubeletConfigPathPfx then
    let dumpPathSplit := splitSlash dumpPath
    if dumpPathSplit.length ≠ 4 then ("", "")
    else (dumpPathSplit.getD 2 "", dumpPathSplit.getD 3 "")
  else ("", "")

/-- The divergence warning (line 613); the rendered `jsondiff` patch text of
the original message is external formatting and is abstracted away, the
divergent node and the role are retained. -/
def inconsistentWarning (node role : String) : String :=
  "Kubelet configs for " ++ node ++ " are not consistent with role " ++ role ++
    ", Diff of KubeletConfigs for " ++ role ++ " role will not be saved."

/-- One iteration of the reconciliation loop of
`saveConsistentKubeletResult` (lines 602–625), folding one fetched entry
into the per-role baseline map and the warning list. -/
def saveConsistentStep (st : List (String × Content) × List String)
    (entry : String × Content) : Except String (List (String × Content) × List String) :=
  let (kubeletConfigsRole, warning) := st
  let (role, node) := getRoleNodeNameFromDumpPath entry.1
  if role = "" then .ok st
  else
    match assocLookup kubeletConfigsRole role with
    | some existingKC =>
      (match compareJSONNil existingKC entry.2 with
       | .error e => .error (e ++ " for " ++ node)
       | .ok diffIsNil =>
         if diffIsNil then .ok (kubeletConfigsRole, warning)
         else
           let why := inconsistentWarning node role
           match jsonIntersection existingKC entry.2 with
           | .error e =>
             .error ("couldn't get intersection of kubelet configs: " ++ e ++
               " for " ++ node)
           | .ok intersectionKC =>
             .ok (assocInsert kubeletConfigsRole role intersectionKC, warning ++ [why]))
    | none => .ok (assocInsert kubeletConfigsRole role entry.2, warning)

/-- The write-back of the per-role artifacts (lines 626–631). -/
def saveRoleArtifacts (kubeletConfigsRole : List (String × Content))
    (result : List (String × Content)) : List (String × Content) :=
  kubeletConfigsRole.foldl (fun res p =>
    if p.1 = "" then res else assocInsert res (kubeletConfigRolePathPfx ++ p.1) p.2)
    result

/-- `saveConsistentKubeletResult` (lines 596–633).  The list order of
`result` stands for the Go map iteration order. -/
def saveConsistentKubeletResult (result : List (String × Content))
    (warning : List String) : Except String (List (String × Content) × List String) :=
  if result.isEmpty then .ok (result, warning)
  else
    match result.foldlM saveConsistentStep ([], warning) with
    | .error e => .error e
    | .ok folded => .ok (saveRoleArtifacts folded.1 result, folded.2)

/-! ### Filtering (lines 635–666) and fetching (lines 543–594)

The `gojq` engine is external: a filter expression either fails to parse or
compiles to a function from the unmarshalled document to the iterator's
output stream, each streamed item being a value or an error. -/

inductive GojqVal where
  | val (j : Json)
  | errv (msg : String)

inductive GojqOutcome where
  | parseErr (msg : String)
  | compiled (run : Json → List GojqVal)

/-- Result of the `filter` function: a value, or a value accompanied by the
more-than-one-object error, or a hard error. -/
inductive FilterOut where
  | ok (out : Json)
  | moreWarn (out : Json)
  | err (msg : String)

/-- `filter` (lines 635–666): parse the expression, unmarshal the payload
into a JSON object, run the query; no result is a hard error, a leading
error value is a hard error, and anything after the first result makes the
first result come back together with `MoreThanOneObjErr`. -/
def filter (evalFilter : String → GojqOutcome) (rawobj : Content) (fltr : String) :
    FilterOut :=
  match evalFilter fltr with
  | .parseErr m => .err ("could not create filter '" ++ fltr ++ "': " ++ m)
  | .compiled run =>
    match decodeContent rawobj with
    | some (Json.obj fields) =>
      (match run (Json.obj fields) with
       | [] => .err "couldn't get filtered object"
       | .errv m :: _ => .err m
       | .val v :: rest => if rest.isEmpty then .ok v else .moreWarn v)
    | _ => .err "Error unmarshalling json"

/-- One `Stream` call of the dispatched streamer, as observed by `fetch`:
the error classes it distinguishes (`IsNotFound` also carrying the reason
used for the marker payload), or the fully read body. -/
inductive StreamResult where
  | notFound (msg reason : String)
  | forbidden (msg : String)
  | noMatch (msg : String)
  | otherErr (msg : String)
  | ok (body : Content)

def couldNotFetchMsg (uri msg : String) : String :=
  "could not fetch " ++ uri ++ ": " ++ msg

def moreThanOneWarnMsg (fltr : String) : String :=
  "Skipping extra results from filter '" ++ fltr ++ "': " ++ moreThanOneObjErr

structure FetchState where
  results : List (String × Content)
  warnings : List String

/-- The body of the per-path closure of `fetch` (lines 548–587). -/
def fetchStep (streamer : String → StreamResult) (evalFilter : String → GojqOutcome)
    (st : FetchState) (rpath : ResourcePath) : Except String FetchState :=
  match streamer rpath.ObjPath with
  | .noMatch m =>
    .ok { st with warnings := st.warnings ++ [couldNotFetchMsg rpath.ObjPath m] }
  | .forbidden m =>
    .ok { st with warnings := st.warnings ++ [couldNotFetchMsg rpath.ObjPath m] }
  | .notFound m reason =>
    .ok { results := assocInsert st.results rpath.DumpPath
            (.raw ("# kube-api-error=" ++ reason)),
          warnings := st.warnings ++ [couldNotFetchMsg rpath.ObjPath m] }
  | .otherErr m => .error ("streaming URIs failed: " ++ m)
  | .ok body =>
    if contentIsEmpty body then .ok st
    else if rpath.Filter ≠ "" then
      match filter evalFilter body rpath.Filter with
      | .ok out =>
        .ok { st with results := assocInsert st.results rpath.DumpPath (.json out) }
      | .moreWarn out =>
        .ok { results := assocInsert st.results rpath.DumpPath (.json out),
              warnings := st.warnings ++ [moreThanOneWarnMsg rpath.Filter] }
      | .err m =>
        .error ("couldn't filter '" ++ contentText body ++ "': " ++ m)
    else .ok { st with results := assocInsert st.results rpath.DumpPath body }

/-- The fetch loop over the resource paths; an error stops the loop with the
warnings accumulated so far. -/
def fetchLoop (streamer : String → StreamResult) (evalFilter : String → GojqOutcome)
    (st : FetchState) : List ResourcePath → FetchState × Option String
  | [] => (st, none)
  | rpath :: rest =>
    match fetchStep streamer evalFilter st rpath with
    | .ok st' => fetchLoop streamer evalFilter st' rest
    | .error e => (st, some e)

/-- `fetch` (lines 543–594), returning the Go triple (result map or nil,
warnings, error or nil): the loop over all paths followed by the kubelet
consistency pass. -/
def fetch (streamer : String → StreamResult) (evalFilter : String → GojqOutcome)
    (objects : List ResourcePath) :
    Option (List (String × Content)) × List String × Option String :=
  match fetchLoop streamer evalFilter ⟨[], []⟩ objects with
  | (st, some e) => (none, st.warnings, some e)
  | (st, none) =>
    match saveConsistentKubeletResult st.results st.warnings with
    | .ok (res, w) => (some res, w, none)
    | .error e => (none, [], some e)

/-! ### Result persistence (lines 703–715), over Go `path` semantics -/

/-- The element-processing loop of Go `path.Clean`: drop empty and `.`
components, let `..` pop a previous component (except that it is dropped at
the root of a rooted path and accumulated at the front of an unrooted one).
The accumulator is kept reversed. -/
def cleanComponents (rooted : Bool) : List String → List String → List String
  | acc, [] => acc.reverse
  | acc, c :: rest =>
    if c = "" || c = "." then cleanComponents rooted acc rest
    else if c = ".." then
      match acc with
      | top :: accTail =>
        if top = ".." then cleanComponents rooted (".." :: top :: accTail) rest
        else cleanComponents rooted accTail rest
      | [] =>
        if rooted then cleanComponents rooted [] rest
        else cleanComponents rooted [".."] rest
    else cleanComponents rooted (c :: acc) rest

def joinComponents : List String → String
  | [] => ""
  | [c] => c
  | c :: rest => c ++ "/" ++ joinComponents rest

/-- Go `path.Clean`. -/
def pathClean (p : String) : String :=
  if p = "" then "."
  else
    let rooted := strStartsWith p "/"
    let body := joinComponents (cleanComponents rooted [] (splitSlash p))
    if rooted then (if body = "" then "/" else "/" ++ body)
    else (if body = "" then "." else body)

/-- Go `path.Base`: everything after the final slash once trailing slashes
are stripped; `.` for the empty path, `/` for an all-slash path. -/
def pathBase (p : String) : String :=
  if p = "" then "."
  else
    let q := (p.data.reverse.dropWhile (fun c => c = '/')).reverse
    if q.isEmpty then "/"
    else String.mk ((q.reverse.takeWhile (fun c => c ≠ '/')).reverse)

/-- Go `path.Dir`: the cleaned prefix up to and including the final slash. -/
def pathDir (p : String) : String :=
  pathClean (String.mk ((p.data.reverse.dropWhile (fun c => c ≠ '/')).reverse))

/-- Go `path.Join` for two elements. -/
def pathJoin (a b : String) : String :=
  if a = "" && b = "" then ""
  else if a = "" then pathClean b
  else if b = "" then pathClean a
  else pathClean (a ++ "/" ++ b)

/-- `getSaveDirectoryAndFileName` (lines 703–715). -/
def getSaveDirectoryAndFileName (rootDir apiPath : String) :
    Except String (String × String) :=
  let base := pathBase apiPath
  if base = "." ∨ base = "/" then .error ("bad object path: " ++ apiPath)
  else
    let subDirs := pathDir apiPath
    if subDirs = "." then .error ("bad object path: " ++ apiPath)
    else .ok (pathJoin rootDir subDirs, base)

/-! ### String and association-list lemmas -/

theorem strData_append (a b : String) : (a ++ b).data = a.data ++ b.data := by
  cases a; cases b; rfl

theorem strExt {a b : String} (h : a.data = b.data) : a = b := by
  cases a; cases b; exact congrArg String.mk h

theorem isPrefixOf_append_self (l m : List Char) : l.isPrefixOf (l ++ m) = true := by
  induction l with
  | nil => simp [List.isPrefixOf]
  | cons c cs ih => simp [List.isPrefixOf, ih]

theorem strStartsWith_append (pfx rest : String) :
    strStartsWith (pfx ++ rest) pfx = true := by
  simp [strStartsWith, strData_append, isPrefixOf_append_self]

theorem strAppend_assoc (a b c : String) : a ++ b ++ c = a ++ (b ++ c) := by
  apply strExt
  simp [strData_append]

theorem slashFree_notMem {s : String} (h : slashFree s = true) : '/' ∉ s.data := by
  intro hmem
  simp only [slashFree, List.all_eq_true] at h
  simpa using h _ hmem

theorem append_cons_slash_inj {r n r' n' : List Char}
    (hr : '/' ∉ r) (hr' : '/' ∉ r')
    (h : r ++ '/' :: n = r' ++ '/' :: n') : r = r' ∧ n = n' := by
  induction r generalizing r' with
  | nil =>
    cases r' with
    | nil => simpa using h
    | cons c cs =>
      simp only [List.nil_append, List.cons_append, List.cons.injEq] at h
      exact absurd (h.1 ▸ List.mem_cons_self c cs) hr'
  | cons c cs ih =>
    cases r' with
    | nil =>
      simp only [List.cons_append, List.nil_append, List.cons.injEq] at h
      exact absurd (h.1 ▸ List.mem_cons_self c cs) hr
    | cons c' cs' =>
      simp only [List.cons_append, List.cons.injEq] at h
      have hr1 : '/' ∉ cs := fun hx => hr (List.mem_cons_of_mem _ hx)
      have hr2 : '/' ∉ cs' := fun hx => hr' (List.mem_cons_of_mem _ hx)
      obtain ⟨h1, h2⟩ := ih hr1 hr2 h.2
      exact ⟨by simp [h.1, h1], h2⟩

theorem assocLookup_nil {α : Type} (k : String) : assocLookup ([] : List (String × α)) k = none := rfl

theorem assocLookup_cons_self {α : Type} (k : String) (v : α) (m : List (String × α)) :
    assocLookup ((k, v) :: m) k = some v := by
  simp [assocLookup, List.find?]

theorem assocLookup_cons_ne {α : Type} {p : String × α} {k : String}
    (h : p.1 ≠ k) (m : List (String × α)) :
    assocLookup (p :: m) k = assocLookup m k := by
  simp [assocLookup, List.find?, h]

theorem assocLookup_eq_none_of_not_mem_keys {α : Type} {m : List (String × α)} {k : String}
    (h : k ∉ m.map Prod.fst) : assocLookup m k = none := by
  induction m with
  | nil => rfl
  | cons p rest ih =>
    simp only [List.map_cons, List.mem_cons, not_or] at h
    rw [assocLookup_cons_ne (fun he => h.1 he.symm) rest]
    exact ih h.2

theorem assocLookup_self_of_nodup_keys {α : Type} {m : List (String × α)}
    (hnd : (m.map Prod.fst).Nodup) {p : String × α} (hp : p ∈ m) :
    assocLookup m p.1 = some p.2 := by
  induction m with
  | nil => cases hp
  | cons q rest ih =>
    rw [List.map_cons, List.nodup_cons] at hnd
    rcases List.mem_cons.mp hp with h | h
    · subst h; exact assocLookup_cons_self _ _ _
    · have hne : q.1 ≠ p.1 := fun he => hnd.1 (he ▸ List.mem_map_of_mem Prod.fst h)
      rw [assocLookup_cons_ne hne rest]
      exact ih hnd.2 h

theorem assocHasKey_iff_isSome {α : Type} (m : List (String × α)) (k : String) :
    assocHasKey m k = true ↔ (assocLookup m k).isSome = true := by
  induction m with
  | nil => simp [assocHasKey, assocLookup]
  | cons p rest ih =>
    by_cases hp : p.1 = k
    · cases p; subst hp
      simp [assocHasKey, assocLookup_cons_self]
    · rw [assocLookup_cons_ne hp rest]
      unfold assocHasKey at ih ⊢
      simp only [List.any_cons, hp]
      simpa [hp] using ih

theorem assocLookup_mapReplace_ne {α : Type} (m : List (String × α)) (k k' : String) (v : α)
    (hk : k' ≠ k) :
    assocLookup (m.map (fun p => if p.1 = k then (k, v) else p)) k' = assocLookup m k' := by
  induction m with
  | nil => rfl
  | cons p rest ih =>
    by_cases hp : p.1 = k
    · rw [List.map_cons, if_pos hp, assocLookup_cons_ne (fun h => hk h.symm),
        assocLookup_cons_ne (by rw [hp]; exact fun h => hk h.symm) rest]
      exact ih
    · rw [List.map_cons, if_neg hp]
      by_cases hq : p.1 = k'
      · cases p; subst hq; simp [assocLookup_cons_self]
      · rw [assocLookup_cons_ne hq, assocLookup_cons_ne hq rest]
        exact ih

theorem assocLookup_mapReplace_self {α : Type} (m : List (String × α)) (k : String) (v : α)
    (h : assocHasKey m k = true) :
    assocLookup (m.map (fun p => if p.1 = k then (k, v) else p)) k = some v := by
  induction m with
  | nil => simp [assocHasKey] at h
  | cons p rest ih =>
    by_cases hp : p.1 = k
    · rw [List.map_cons, if_pos hp, assocLookup_cons_self]
    · rw [List.map_cons, if_neg hp, assocLookup_cons_ne hp]
      refine ih ?_
      simpa [assocHasKey, hp] using h

theorem assocLookup_append_single {α : Type} (m : List (String × α)) (k k' : String) (v : α) :
    assocLookup (m ++ [(k, v)]) k' =
      match assocLookup m k' with
      | some w => some w
      | none => if k' = k then some v else none := by
  induction m with
  | nil =>
    simp only [List.nil_append, assocLookup_nil]
    by_cases h : k' = k
    · subst h; simp [assocLookup_cons_self]
    · rw [assocLookup_cons_ne (p := (k, v)) (fun he => h he.symm) [], assocLookup_nil]
      simp [h]
  | cons p rest ih =>
    by_cases hp : p.1 = k'
    · cases p; subst hp; simp [assocLookup_cons_self]
    · rw [List.cons_append, assocLookup_cons_ne hp, assocLookup_cons_ne hp rest]
      exact ih

theorem assocLookup_insert {α : Type} (m : List (String × α)) (k k' : String) (v : α) :
    assocLookup (assocInsert m k v) k' = if k' = k then some v else assocLookup m k' := by
  unfold assocInsert
  by_cases h : assocHasKey m k = true
  · rw [if_pos h]
    by_cases hk : k' = k
    · subst hk; rw [if_pos rfl]; exact assocLookup_mapReplace_self m k' v h
    · rw [if_neg hk]; exact assocLookup_mapReplace_ne m k k' v hk
  · rw [if_neg h, assocLookup_append_single]
    have hn : assocLookup m k = none := by
      cases hl : assocLookup m k with
      | none => rfl
      | some w =>
        exact absurd ((assocHasKey_iff_isSome m k).mpr (by simp [hl])) h
    by_cases hk : k' = k
    · subst hk; simp [hn]
    · simp [hk]
      cases assocLookup m k' <;> simp

theorem assocLookup_applyOverrides (o : VarTable) (base : VarTable) (k : String)
    (hnd : (o.map Prod.fst).Nodup) :
    assocLookup (applyOverrides base o) k =
      if (assocLookup base k).isSome then
        (match assocLookup o k with
         | some w => some w
         | none => assocLookup base k)
      else none := by
  induction o generalizing base with
  | nil =>
    simp only [applyOverrides, List.foldl_nil, assocLookup_nil]
    cases h : assocLookup base k with
    | none => simp [h]
    | some w => simp [h]
  | cons kv o' ih =>
    obtain ⟨k0, v0⟩ := kv
    rw [List.map_cons, List.nodup_cons] at hnd
    have hstep : applyOverrides base ((k0, v0) :: o') =
        applyOverrides
          (if (assocLookup base k0).isSome then assocInsert base k0 v0 else base) o' := rfl
    rw [hstep, ih _ hnd.2]
    by_cases hk : k = k0
    · subst hk
      have ho' : assocLookup o' k = none :=
        assocLookup_eq_none_of_not_mem_keys hnd.1
      rw [assocLookup_cons_self]
      by_cases hb : (assocLookup base k).isSome = true
      · rw [if_pos hb]
        have hins : assocLookup (assocInsert base k v0) k = some v0 := by
          rw [assocLookup_insert]; simp
        simp [hins, ho', hb]
      · rw [if_neg hb]
        simp [hb, Option.not_isSome_iff_eq_none.mp hb]
    · rw [assocLookup_cons_ne (p := (k0, v0)) (fun he => hk he.symm) o']
      have hbase' :
          assocLookup (if (assocLookup base k0).isSome then assocInsert base k0 v0 else base) k =
            assocLookup base k := by
        by_cases hb : (assocLookup base k0).isSome = true
        · rw [if_pos hb, assocLookup_insert, if_neg hk]
        · rw [if_neg hb]
      rw [hbase']

/-! ### Splitting paths on slashes -/

theorem splitOnChar_not_mem {sep : Char} {l : List Char} (h : sep ∉ l) :
    splitOnChar sep l = [l] := by
  induction l with
  | nil => rfl
  | cons c cs ih =>
    have hc : ¬ c = sep := fun he => h (he ▸ List.mem_cons_self c cs)
    have hcs : sep ∉ cs := fun hx => h (List.mem_cons_of_mem _ hx)
    simp [splitOnChar, hc, ih hcs]

theorem splitOnChar_cons_sep (sep : Char) (m : List Char) :
    splitOnChar sep (sep :: m) = [] :: splitOnChar sep m := by
  simp [splitOnChar]

theorem splitOnChar_append {sep : Char} {l : List Char} (m : List Char) (h : sep ∉ l) :
    splitOnChar sep (l ++ sep :: m) = l :: splitOnChar sep m := by
  induction l with
  | nil => simp [splitOnChar]
  | cons c cs ih =>
    have hc : ¬ c = sep := fun he => h (he ▸ List.mem_cons_self c cs)
    have hcs : sep ∉ cs := fun hx => h (List.mem_cons_of_mem _ hx)
    simp [splitOnChar, hc, ih hcs]

theorem strMk_data (s : String) : String.mk s.data = s := rfl

theorem splitSlash_kubelet (r n : String) (hr : slashFree r = true) (hn : slashFree n = true) :
    splitSlash (kubeletConfigPathPfx ++ r ++ "/" ++ n) = ["", "kubeletconfig", r, n] := by
  have h0 : kubeletConfigPathPfx.data = '/' :: ("kubeletconfig".data ++ ['/']) := rfl
  have hslash : ("/" : String).data = ['/'] := rfl
  have hd : (kubeletConfigPathPfx ++ r ++ "/" ++ n).data
      = '/' :: ("kubeletconfig".data ++ '/' :: (r.data ++ '/' :: n.data)) := by
    rw [strData_append, strData_append, strData_append, h0, hslash]
    simp [List.append_assoc]
  unfold splitSlash
  rw [hd, splitOnChar_cons_sep,
    splitOnChar_append _ (by decide), splitOnChar_append _ (slashFree_notMem hr),
    splitOnChar_not_mem (slashFree_notMem hn)]
  simp [strMk_data]

theorem getRoleNodeName_kubelet (r n : String) (hr : slashFree r = true)
    (hn : slashFree n = true) :
    getRoleNodeNameFromDumpPath (kubeletConfigPathPfx ++ r ++ "/" ++ n) = (r, n) := by
  unfold getRoleNodeNameFromDumpPath
  have hsw : strStartsWith (kubeletConfigPathPfx ++ r ++ "/" ++ n) kubeletConfigPathPfx
      = true := by
    rw [strAppend_assoc, strAppend_assoc]
    exact strStartsWith_append _ _
  rw [splitSlash_kubelet r n hr hn]
  simp [hsw]

/-! ### Kubelet resource-path facts -/

theorem kubeletDump_startsWith (r n : String) :
    strStartsWith (kubeletConfigPathPfx ++ r ++ "/" ++ n) kubeletConfigPathPfx = true := by
  rw [strAppend_assoc, strAppend_assoc]
  exact strStartsWith_append _ _

theorem kubeletResourcePath_inj {r n r' n' : String}
    (hr : slashFree r = true) (hr' : slashFree r' = true)
    (h : kubeletResourcePath r n = kubeletResourcePath r' n') : r = r' ∧ n = n' := by
  have hd : kubeletConfigPathPfx ++ r ++ "/" ++ n = kubeletConfigPathPfx ++ r' ++ "/" ++ n' :=
    congrArg ResourcePath.DumpPath h
  have hdata := congrArg String.data hd
  have hslash : ("/" : String).data = ['/'] := rfl
  rw [strData_append, strData_append, strData_append, strData_append, strData_append,
    strData_append, hslash] at hdata
  rw [List.append_assoc, List.append_assoc, List.append_assoc, List.append_assoc] at hdata
  have hcancel := List.append_cancel_left hdata
  simp only [List.singleton_append] at hcancel
  obtain ⟨h1, h2⟩ := append_cons_slash_inj (slashFree_notMem hr) (slashFree_notMem hr') hcancel
  exact ⟨strExt h1, strExt h2⟩

theorem kubeletResourcePath_node_inj (r : String) :
    Function.Injective (fun node => kubeletResourcePath r node) := by
  intro a b h
  have hd : kubeletConfigPathPfx ++ r ++ "/" ++ a = kubeletConfigPathPfx ++ r ++ "/" ++ b :=
    congrArg ResourcePath.DumpPath h
  have hdata := congrArg String.data hd
  rw [strData_append, strData_append] at hdata
  exact strExt (List.append_cancel_left hdata)

theorem fixed_not_kubelet :
    ∀ q ∈ fixedResourcePaths, strStartsWith q.DumpPath kubeletConfigPathPfx = false := by
  decide

/-! ### Structure of the discovery result -/

theorem pathsForChecks_nil (ruleDefs : XNode) (vl : VarTable) :
    pathsForChecks ruleDefs [] vl = [] := by
  simp [pathsForChecks]

theorem figureResources_decompose (ds : XNode) (tl : Option XNode) (profile : String)
    (rn : List (String × List String)) :
    figureResources ds tl profile rn =
      fixedAndRolePaths rn ++ profileDerivedPaths ds tl profile := by
  cases tl with
  | none => rfl
  | some t =>
    unfold figureResources profileDerivedPaths fixedAndRolePaths
    by_cases h : getExtendedProfileFromTailoring t profile = "" <;>
      simp [h, List.append_assoc]

theorem getKubelet_flatMap (rn : List (String × List String)) :
    getKubeletConfigResourcePath rn =
      rn.flatMap (fun p => p.2.map (fun node => kubeletResourcePath p.1 node)) := by
  have haux : ∀ (l : List (String × List String)) (acc : List ResourcePath),
      l.foldl (fun acc p => acc ++ p.2.map (fun node => kubeletResourcePath p.1 node)) acc =
        acc ++ l.flatMap (fun p => p.2.map (fun node => kubeletResourcePath p.1 node)) := by
    intro l
    induction l with
    | nil => intro acc; simp
    | cons p rest ih => intro acc; simp [ih, List.append_assoc]
  simpa using haux rn []

theorem count_kubelet (rn : List (String × List String)) (r : String) (ns : List String)
    (n : String) (hmem : (r, ns) ∈ rn) (hn : n ∈ ns)
    (hkeys : (rn.map Prod.fst).Nodup)
    (hroles : ∀ p ∈ rn, slashFree p.1 = true)
    (hnodes : ∀ p ∈ rn, p.2.Nodup) :
    (getKubeletConfigResourcePath rn).count (kubeletResourcePath r n) = 1 := by
  rw [getKubelet_flatMap]
  revert hmem hkeys hroles hnodes
  induction rn with
  | nil => intro hmem _ _ _; cases hmem
  | cons p rest ih =>
    intro hmem hkeys hroles hnodes
    rw [List.flatMap_cons, List.count_append]
    rw [List.map_cons, List.nodup_cons] at hkeys
    rcases List.mem_cons.mp hmem with he | hrest
    · subst he
      have hhead : ((ns.map (fun node => kubeletResourcePath r node)).count
          (kubeletResourcePath r n)) = 1 := by
        rw [List.count_map_of_injective _ _ (kubeletResourcePath_node_inj r)]
        exact List.count_eq_one_of_mem (hnodes _ (List.mem_cons_self _ _)) hn
      have hrest0 : ((rest.flatMap
          (fun p => p.2.map (fun node => kubeletResourcePath p.1 node))).count
          (kubeletResourcePath r n)) = 0 := by
        rw [List.count_eq_zero]
        intro hmem2
        rw [List.mem_flatMap] at hmem2
        obtain ⟨q, hq, hmm⟩ := hmem2
        rw [List.mem_map] at hmm
        obtain ⟨m, _, heq⟩ := hmm
        have hq1 := (kubeletResourcePath_inj
          (hroles q (List.mem_cons_of_mem _ hq))
          (hroles _ (List.mem_cons_self _ _)) heq).1
        exact hkeys.1 (hq1 ▸ List.mem_map_of_mem Prod.fst hq)
      rw [hhead, hrest0]
    · have hp1r : p.1 ≠ r := by
        intro he2
        exact hkeys.1 (he2 ▸ List.mem_map_of_mem Prod.fst hrest)
      have hhead0 : ((p.2.map (fun node => kubeletResourcePath p.1 node)).count
          (kubeletResourcePath r n)) = 0 := by
        rw [List.count_eq_zero]
        intro hmem2
        rw [List.mem_map] at hmem2
        obtain ⟨m, _, heq⟩ := hmem2
        exact hp1r (kubeletResourcePath_inj
          (hroles p (List.mem_cons_self _ _))
          (hroles (r, ns) (List.mem_cons_of_mem _ hrest)) heq).1
      have hroles' : ∀ q ∈ rest, slashFree q.1 = true :=
        fun q hq => hroles q (List.mem_cons_of_mem _ hq)
      have hnodes' : ∀ q ∈ rest, q.2.Nodup :=
        fun q hq => hnodes q (List.mem_cons_of_mem _ hq)
      rw [hhead0, ih hrest hkeys.2 hroles' hnodes']

/-! ### Witness documents -/

def docTrivial : XNode := .elem "Benchmark" [] []

def docBench : XNode :=
  .elem "Benchmark" [] [
    .elem "Value" [("id", "xccdf_org.ssgproject.content_value_A")] [
      .elem "value" [] [.text "1"]],
    .elem "Profile" [("id", "P")] [
      .elem "select" [("idref", "rule1"), ("selected", "true")] []],
    .elem "Rule" [("id", "rule1")] [
      .elem "warning" [] [
        .elem "code" [("class", "ocp-api-endpoint")] [.text "/apis/foo/v1/things"]]]]

def docTailoring : XNode :=
  .elem "Tailoring" [] [
    .elem "Profile" [("id", "tp"), ("extends", "P")] []]

/-! ### Claim theorems: discovery -/

/-- Claim C1: for every benchmark/tailoring document pair whose rule-derived
dump paths stay outside the reserved kubelet-config namespace
(well-formedness), and every node-role map obtained from cluster node labels
(role names slash-free, per-role node lists duplicate-free, one entry per
role), the discovery result of FigureResources contains the fixed
cluster-scoped paths — among them the version and base-config paths — and
exactly one kubelet-config ResourcePath per (role, node) pair, independently
of the profile's content (documents and profile are universally
quantified). -/
theorem figureResources_fixed_and_kubelet
    (ds : XNode) (tl : Option XNode) (profile : String)
    (rn : List (String × List String))
    (hkeys : (rn.map Prod.fst).Nodup)
    (hroles : ∀ p ∈ rn, slashFree p.1 = true)
    (hnodes : ∀ p ∈ rn, p.2.Nodup)
    (hprof : ∀ q ∈ profileDerivedPaths ds tl profile,
      strStartsWith q.DumpPath kubeletConfigPathPfx = false) :
    (∀ q ∈ fixedResourcePaths, q ∈ figureResources ds tl profile rn) ∧
    (∀ r ns n, (r, ns) ∈ rn → n ∈ ns →
      (figureResources ds tl profile rn).count (kubeletResourcePath r n) = 1) := by
  rw [figureResources_decompose]
  constructor
  · intro q hq
    rw [List.mem_append]
    left
    unfold fixedAndRolePaths
    exact List.mem_append.mpr (Or.inl hq)
  · intro r ns n hmem hn
    rw [List.count_append]
    have hlen : 0 < rn.length := List.length_pos.mpr (List.ne_nil_of_mem hmem)
    have hsw : strStartsWith (kubeletResourcePath r n).DumpPath kubeletConfigPathPfx
        = true := kubeletDump_startsWith r n
    have hfr : (fixedAndRolePaths rn).count (kubeletResourcePath r n) = 1 := by
      unfold fixedAndRolePaths
      rw [List.count_append, if_pos hlen]
      have h1 : fixedResourcePaths.count (kubeletResourcePath r n) = 0 := by
        rw [List.count_eq_zero]
        intro hmemf
        have hf := fixed_not_kubelet _ hmemf
        rw [hsw] at hf
        cases hf
      rw [h1, count_kubelet rn r ns n hmem hn hkeys hroles hnodes]
    have hp0 : (profileDerivedPaths ds tl profile).count (kubeletResourcePath r n) = 0 := by
      rw [List.count_eq_zero]
      intro hmemp
      have hf := hprof _ hmemp
      rw [hsw] at hf
      cases hf
    rw [hfr, hp0]

/-- Witness for C1 at a concrete document and node-role map. -/
theorem figureResources_fixed_and_kubelet_witness :
    (∀ q ∈ fixedResourcePaths,
      q ∈ figureResources docBench none "P" [("master", ["node1"])]) ∧
    (∀ r ns n, (r, ns) ∈ [("master", ["node1"])] → n ∈ ns →
      (figureResources docBench none "P" [("master", ["node1"])]).count
        (kubeletResourcePath r n) = 1) :=
  figureResources_fixed_and_kubelet docBench none "P" [("master", ["node1"])]
    (by decide) (by decide) (by decide) (by decide)

/-- Claim C5: the tailoring-provided overrides applied while building the
variable table only overwrite ids already present in the benchmark-derived
table and never insert a new id: the resolved table's entry at any id k is
the override's value when the base table has k and the overrides carry k,
the base value when only the base has k, and absent when the base lacks k. -/
theorem getResourcePaths_override_only_overwrites
    (profileDefs ruleDefs : XNode) (profile : String) (o : VarTable) (k : String)
    (hnd : (o.map Prod.fst).Nodup) :
    assocLookup ((getResourcePaths profileDefs ruleDefs profile (some o)).2) k =
      if (assocLookup ((getResourcePaths profileDefs ruleDefs profile none).2) k).isSome
      then
        (match assocLookup o k with
         | some w => some w
         | none => assocLookup ((getResourcePaths profileDefs ruleDefs profile none).2) k)
      else none := by
  have h2 : (getResourcePaths profileDefs ruleDefs profile (some o)).2 =
      applyOverrides (buildValuesList profileDefs ruleDefs) o := rfl
  have h0 : (getResourcePaths profileDefs ruleDefs profile none).2 =
      buildValuesList profileDefs ruleDefs := rfl
  rw [h2, h0, assocLookup_applyOverrides o _ k hnd]

/-- Witness for C5: benchmark table A↦1, overrides A↦2 and B↦3; the
resolved table maps A to 2 and has no entry for B. -/
theorem getResourcePaths_override_witness :
    assocLookup ((getResourcePaths docBench docBench "P"
        (some [("A", "2"), ("B", "3")])).2) "A" = some "2" ∧
    assocLookup ((getResourcePaths docBench docBench "P"
        (some [("A", "2"), ("B", "3")])).2) "B" = none := by
  constructor
  · rw [getResourcePaths_override_only_overwrites docBench docBench "P"
      [("A", "2"), ("B", "3")] "A" (by decide)]
    decide
  · rw [getResourcePaths_override_only_overwrites docBench docBench "P"
      [("A", "2"), ("B", "3")] "B" (by decide)]
    decide

/-- Claim C6: with a tailoring document present, FigureResources resolves the
tailoring profile's selections and then its extends target for exactly one
hop.  Without an extends id discovery stops with only the fixed,
role-expanded and tailoring-resolved paths; with extends=P and no own
selections it resolves to exactly P's selected-check set, evaluated under
the merged variable table of the tailoring pass. -/
theorem figureResources_tailoring_extension
    (ds t : XNode) (profile : String) (rn : List (String × List String)) :
    (getExtendedProfileFromTailoring t profile = "" →
      figureResources ds (some t) profile rn =
        fixedAndRolePaths rn ++ (getResourcePaths t ds profile none).1) ∧
    (∀ P, getExtendedProfileFromTailoring t profile = P → P ≠ "" →
      selectedCheckIds t profile = [] →
      figureResources ds (some t) profile rn =
        fixedAndRolePaths rn ++
          (getResourcePaths ds ds P
            (some (getResourcePaths t ds profile none).2)).1) := by
  constructor
  · intro h
    unfold figureResources fixedAndRolePaths
    simp [h]
  · intro P hP hne hsel
    have h1 : (getResourcePaths t ds profile none).1 = [] := by
      show pathsForChecks ds (selectedCheckIds t profile) _ = []
      rw [hsel]
      exact pathsForChecks_nil _ _
    unfold figureResources fixedAndRolePaths
    simp [hP, hne, h1]

/-- Witness for C6: a tailoring profile tp extending P with no selections of
its own resolves to exactly P's selected paths under the merged table. -/
theorem figureResources_tailoring_extension_witness :
    figureResources docBench (some docTailoring) "tp" [("master", ["node1"])] =
      fixedAndRolePaths [("master", ["node1"])] ++
        (getResourcePaths docBench docBench "P"
          (some (getResourcePaths docTailoring docBench "tp" none).2)).1 :=
  (figureResources_tailoring_extension docBench docTailoring "tp"
    [("master", ["node1"])]).2 "P" (by decide) (by decide) (by decide)

/-- Claim C8 (amended): two discovery runs over identical documents and
identical cluster node state produce resource-path lists containing the same
elements — equal as multisets — and the same variable table (which in the
model is a function of the documents alone); the list order, however,
follows the Go map iteration order over the node-role map, which is
randomized between runs, so equality of the lists *in the same order* does
not hold (see the counterexample). -/
theorem figureResources_perm_of_roleNodes_perm
    (ds : XNode) (tl : Option XNode) (profile : String)
    (rn1 rn2 : List (String × List String)) (hp : rn1.Perm rn2) :
    (figureResources ds tl profile rn1).Perm (figureResources ds tl profile rn2) := by
  rw [figureResources_decompose, figureResources_decompose]
  apply List.Perm.append_right
  unfold fixedAndRolePaths
  apply List.Perm.append_left
  rw [hp.length_eq]
  by_cases h : 0 < rn2.length
  · rw [if_pos h, if_pos h, getKubelet_flatMap, getKubelet_flatMap]
    exact hp.flatMap_right _
  · rw [if_neg h, if_neg h]

/-- Witness for C8 (amended) at two iteration orders of the same map. -/
theorem figureResources_perm_witness :
    (figureResources docTrivial none "P" [("a", ["n"]), ("b", ["m"])]).Perm
      (figureResources docTrivial none "P" [("b", ["m"]), ("a", ["n"])]) :=
  figureResources_perm_of_roleNodes_perm docTrivial none "P"
    [("a", ["n"]), ("b", ["m"])] [("b", ["m"]), ("a", ["n"])] (by decide)

/-- Counterexample to C8 as stated: with the same documents and the same
node-role map, enumerating the map's entries in the two possible orders (Go
randomizes map iteration between runs) yields ResourcePath lists that are
not equal — the kubelet-config entries appear in a different order. -/
theorem figureResources_order_counterexample :
    figureResources docTrivial none "P" [("a", ["n"]), ("b", ["m"])] ≠
      figureResources docTrivial none "P" [("b", ["m"]), ("a", ["n"])] := by
  decide

/-! ### Claim theorems: persistence (C7) -/

/-- Claim C7 (amended): for every DumpPath persisted, the final path segment
becomes the filename and the remaining prefix, joined under the output root,
becomes the directory; a DumpPath whose basename resolves to the degenerate
value "." or "/", or whose directory part resolves to ".", causes a fatal
error — a directory part of "/" is accepted and places the file directly
under the output root. -/
theorem getSaveDirectoryAndFileName_spec (rootDir apiPath : String) :
    ((∃ e, getSaveDirectoryAndFileName rootDir apiPath = .error e) ↔
      (pathBase apiPath = "." ∨ pathBase apiPath = "/" ∨ pathDir apiPath = ".")) ∧
    ((pathBase apiPath ≠ "." ∧ pathBase apiPath ≠ "/" ∧ pathDir apiPath ≠ ".") →
      getSaveDirectoryAndFileName rootDir apiPath =
        .ok (pathJoin rootDir (pathDir apiPath), pathBase apiPath)) ∧
    getSaveDirectoryAndFileName "/out" "/api/v1/nodes/foo/proxy/configz" =
      .ok ("/out/api/v1/nodes/foo/proxy", "configz") := by
  refine ⟨?_, ?_, rfl⟩
  · unfold getSaveDirectoryAndFileName
    constructor
    · rintro ⟨e, he⟩
      by_cases h1 : pathBase apiPath = "." ∨ pathBase apiPath = "/"
      · exact h1.elim (fun h => Or.inl h) (fun h => Or.inr (Or.inl h))
      · rw [if_neg h1] at he
        by_cases h2 : pathDir apiPath = "."
        · exact Or.inr (Or.inr h2)
        · rw [if_neg h2] at he
          cases he
    · intro h
      by_cases h1 : pathBase apiPath = "." ∨ pathBase apiPath = "/"
      · exact ⟨"bad object path: " ++ apiPath, by rw [if_pos h1]⟩
      · have h2 : pathDir apiPath = "." := by
          rcases h with h | h | h
          · exact absurd (Or.inl h) h1
          · exact absurd (Or.inr h) h1
          · exact h
        exact ⟨"bad object path: " ++ apiPath, by rw [if_neg h1, if_pos h2]⟩
  · intro ⟨hb1, hb2, hd⟩
    unfold getSaveDirectoryAndFileName
    rw [if_neg (by rintro (h | h) <;> [exact hb1 h; exact hb2 h]), if_neg hd]

/-- Witness for C7 (amended): a non-degenerate DumpPath maps to the
directory given by its cleaned prefix joined under the root, and its final
segment as filename. -/
theorem getSaveDirectoryAndFileName_spec_witness :
    getSaveDirectoryAndFileName "/out" "/apis/config.openshift.io/v1/networks/cluster" =
      .ok (pathJoin "/out" (pathDir "/apis/config.openshift.io/v1/networks/cluster"),
        pathBase "/apis/config.openshift.io/v1/networks/cluster") :=
  (getSaveDirectoryAndFileName_spec "/out"
    "/apis/config.openshift.io/v1/networks/cluster").2.1
    ⟨by decide, by decide, by decide⟩

/-- Counterexample to C7 as stated: the DumpPath "/version" (staged on every
run) has directory part "/" — a degenerate value per the claim — yet
getSaveDirectoryAndFileName succeeds instead of raising the fatal error the
claim requires: only "." and "/" basenames and a "." directory are
rejected, a "/" directory is not. -/
theorem getSaveDirectoryAndFileName_slashdir_counterexample :
    pathDir "/version" = "/" ∧
    getSaveDirectoryAndFileName "/out" "/version" = .ok ("/out", "version") :=
  ⟨rfl, rfl⟩

/-! ### Claim theorems: fetch error policy and filtering -/

/-- Claim C4: a per-path not-found / forbidden / no-matching-kind error does
not abort the run — a warning is appended and the loop continues over the
remaining paths unchanged; not-found additionally stores the textual
error-marker payload at the path's DumpPath; any other streaming error stops
the loop and makes fetch return an error with no result map. -/
theorem fetch_per_path_error_policy
    (streamer : String → StreamResult) (evalFltr : String → GojqOutcome)
    (st : FetchState) (p : ResourcePath) (rest : List ResourcePath) :
    ((∀ m, streamer p.ObjPath = .forbidden m →
      fetchLoop streamer evalFltr st (p :: rest) =
        fetchLoop streamer evalFltr
          { st with warnings := st.warnings ++ [couldNotFetchMsg p.ObjPath m] } rest) ∧
     (∀ m, streamer p.ObjPath = .noMatch m →
      fetchLoop streamer evalFltr st (p :: rest) =
        fetchLoop streamer evalFltr
          { st with warnings := st.warnings ++ [couldNotFetchMsg p.ObjPath m] } rest) ∧
     (∀ m reason, streamer p.ObjPath = .notFound m reason →
      fetchLoop streamer evalFltr st (p :: rest) =
        fetchLoop streamer evalFltr
          { results := assocInsert st.results p.DumpPath
              (.raw ("# kube-api-error=" ++ reason)),
            warnings := st.warnings ++ [couldNotFetchMsg p.ObjPath m] } rest) ∧
     (∀ m, streamer p.ObjPath = .otherErr m →
      fetchLoop streamer evalFltr st (p :: rest) =
        (st, some ("streaming URIs failed: " ++ m)) ∧
      fetch streamer evalFltr (p :: rest) =
        (none, [], some ("streaming URIs failed: " ++ m)))) := by
  refine ⟨fun m h => ?_, fun m h => ?_, fun m reason h => ?_, fun m h => ?_⟩
  · simp [fetchLoop, fetchStep, h]
  · simp [fetchLoop, fetchStep, h]
  · simp [fetchLoop, fetchStep, h]
  · constructor
    · simp [fetchLoop, fetchStep, h]
    · simp [fetch, fetchLoop, fetchStep, h]

def streamerW : String → StreamResult := fun uri =>
  if uri = "/nf" then .notFound "the server could not find the requested resource" "NotFound"
  else if uri = "/fb" then .forbidden "forbidden"
  else if uri = "/nm" then .noMatch "no matches for kind"
  else if uri = "/boom" then .otherErr "connection refused"
  else if uri = "/empty" then .ok (.raw "")
  else .ok (.json (.obj [("kubeletconfig", .obj [("maxPods", .num 110)])]))

def evalFltrW : String → GojqOutcome := fun f =>
  if f = "one" then .compiled (fun j => [.val j])
  else if f = "two" then .compiled (fun j => [.val j, .val .null])
  else if f = "zero" then .compiled (fun _ => [])
  else .compiled (fun j => [.val j])

/-- Witness for C4: a not-found path yields the marker entry plus one
warning, and the loop proceeds with the remaining paths. -/
theorem fetch_per_path_error_policy_witness :
    fetchLoop streamerW evalFltrW ⟨[], []⟩
        [⟨"/nf", "/nf", ""⟩, ⟨"/other", "/other", ""⟩] =
      fetchLoop streamerW evalFltrW
        ⟨[("/nf", .raw ("# kube-api-error=" ++ "NotFound"))],
         [couldNotFetchMsg "/nf" "the server could not find the requested resource"]⟩
        [⟨"/other", "/other", ""⟩] :=
  (fetch_per_path_error_policy streamerW evalFltrW ⟨[], []⟩ ⟨"/nf", "/nf", ""⟩
    [⟨"/other", "/other", ""⟩]).2.2.1
    "the server could not find the requested resource" "NotFound" rfl

/-- Claim C9: a path that streams successfully with a zero-byte body leaves
the state untouched — no result entry, no warning — and the loop continues;
this holds for every filter evaluator, so the path's Filter expression is
never consulted. -/
theorem fetch_empty_body_skipped
    (streamer : String → StreamResult) (st : FetchState) (p : ResourcePath)
    (rest : List ResourcePath) (body : Content)
    (hs : streamer p.ObjPath = .ok body) (he : contentIsEmpty body = true) :
    ∀ evalFltr, fetchStep streamer evalFltr st p = .ok st ∧
      fetchLoop streamer evalFltr st (p :: rest) =
        fetchLoop streamer evalFltr st rest := by
  intro evalFltr
  constructor
  · simp [fetchStep, hs, he]
  · simp [fetchLoop, fetchStep, hs, he]

/-- Witness for C9 at a concrete empty-bodied path. -/
theorem fetch_empty_body_skipped_witness :
    fetchStep streamerW evalFltrW ⟨[], []⟩ ⟨"/empty", "/empty", "zero"⟩ =
      .ok ⟨[], []⟩ ∧
    fetchLoop streamerW evalFltrW ⟨[], []⟩
        [⟨"/empty", "/empty", "zero"⟩, ⟨"/other", "/other", ""⟩] =
      fetchLoop streamerW evalFltrW ⟨[], []⟩ [⟨"/other", "/other", ""⟩] :=
  fetch_empty_body_skipped streamerW ⟨[], []⟩ ⟨"/empty", "/empty", "zero"⟩
    [⟨"/other", "/other", ""⟩] (.raw "") rfl rfl evalFltrW

/-- Claim C3: for a fetched path carrying a non-empty Filter whose expression
compiles and whose body unmarshals to a JSON object: exactly one evaluation
result is stored at the DumpPath unchanged with no warning; two or more
results store the first value and append exactly one more-than-one-object
warning while the run continues; zero results stop the whole collection loop
with a hard error. -/
theorem fetch_filter_contract
    (streamer : String → StreamResult) (evalFltr : String → GojqOutcome)
    (st : FetchState) (p : ResourcePath) (rest : List ResourcePath)
    (body : Content) (fields : List (String × Json)) (run : Json → List GojqVal)
    (hs : streamer p.ObjPath = .ok body) (hne : contentIsEmpty body = false)
    (hf : p.Filter ≠ "") (hparse : evalFltr p.Filter = .compiled run)
    (hdec : decodeContent body = some (.obj fields)) :
    ((∀ v, run (.obj fields) = [.val v] →
      fetchStep streamer evalFltr st p =
        .ok { st with results := assocInsert st.results p.DumpPath (.json v) }) ∧
     (∀ v vrest, run (.obj fields) = .val v :: vrest → vrest ≠ [] →
      fetchStep streamer evalFltr st p =
        .ok { results := assocInsert st.results p.DumpPath (.json v),
              warnings := st.warnings ++ [moreThanOneWarnMsg p.Filter] }) ∧
     (run (.obj fields) = [] →
      fetchLoop streamer evalFltr st (p :: rest) =
        (st, some ("couldn't filter '" ++ contentText body ++ "': " ++
          "couldn't get filtered object")))) := by
  refine ⟨fun v hrun => ?_, fun v vrest hrun hvr => ?_, fun hrun => ?_⟩
  · simp [fetchStep, hs, hne, hf, filter, hparse, hdec, hrun]
  · simp [fetchStep, hs, hne, hf, filter, hparse, hdec, hrun, hvr]
  · simp [fetchLoop, fetchStep, hs, hne, hf, filter, hparse, hdec, hrun]

/-- Witness for C3: a two-result filter keeps the first value and appends
exactly one more-than-one-object warning. -/
theorem fetch_filter_contract_witness :
    fetchStep streamerW evalFltrW ⟨[], []⟩ ⟨"/cfg", "/cfg", "two"⟩ =
      .ok { results := assocInsert [] "/cfg"
              (.json (.obj [("kubeletconfig", .obj [("maxPods", .num 110)])])),
            warnings := [moreThanOneWarnMsg "two"] } :=
  (fetch_filter_contract streamerW evalFltrW ⟨[], []⟩ ⟨"/cfg", "/cfg", "two"⟩ []
    (.json (.obj [("kubeletconfig", .obj [("maxPods", .num 110)])]))
    [("kubeletconfig", .obj [("maxPods", .num 110)])]
    (fun j => [.val j, .val .null]) rfl rfl (by decide) rfl rfl).2.1
    (.obj [("kubeletconfig", .obj [("maxPods", .num 110)])]) [.val .null] rfl
    (List.cons_ne_nil _ _)

/-! ### Structural-equality and reconciliation lemmas -/

theorem assocHasKey_of_mem {α : Type} {l : List (String × α)} {p : String × α} (h : p ∈ l) :
    assocHasKey l p.1 = true := by
  unfold assocHasKey
  rw [List.any_eq_true]
  exact ⟨p, h, by simp⟩

theorem structEqSub_of_lookup (m l : List (String × Json))
    (h : ∀ p ∈ m, ∃ w, assocLookup l p.1 = some w ∧ structEq p.2 w = true) :
    structEqSub m l = true := by
  induction m with
  | nil => rfl
  | cons p rest ih =>
    obtain ⟨k, v⟩ := p
    obtain ⟨w, hw, he⟩ := h (k, v) (List.mem_cons_self _ _)
    have hrest := ih (fun q hq => h q (List.mem_cons_of_mem _ hq))
    simp only [Prod.fst] at hw
    simp [structEqSub, hw, he, hrest]

theorem structEq_obj_self (l : List (String × Json))
    (hnd : (l.map Prod.fst).Nodup) (hrefl : ∀ p ∈ l, structEq p.2 p.2 = true) :
    structEq (.obj l) (.obj l) = true := by
  have h1 : structEqSub l l = true :=
    structEqSub_of_lookup l l (fun p hp =>
      ⟨p.2, assocLookup_self_of_nodup_keys hnd hp, hrefl p hp⟩)
  have h2 : l.all (fun p => assocHasKey l p.1) = true := by
    rw [List.all_eq_true]
    exact fun p hp => assocHasKey_of_mem hp
  simp [structEq, h1, h2]

theorem assocInsert_nil {α : Type} (k : String) (v : α) :
    assocInsert ([] : List (String × α)) k v = [(k, v)] := rfl

theorem assocInsert_single_self {α : Type} (k : String) (v v' : α) :
    assocInsert [(k, v)] k v' = [(k, v')] := by
  simp [assocInsert, assocHasKey]

theorem assocInsert_append_of_no_key {α : Type} (m : List (String × α)) (k : String) (v : α)
    (h : assocHasKey m k = false) : assocInsert m k v = m ++ [(k, v)] := by
  simp [assocInsert, h]

theorem nodeKey_ne_roleKey (r n r2 : String) (hr : slashFree r = true) (hrrole : r ≠ "role") :
    kubeletConfigPathPfx ++ r ++ "/" ++ n ≠ kubeletConfigRolePathPfx ++ r2 := by
  intro h
  have hd := congrArg String.data h
  have h0 : kubeletConfigRolePathPfx.data
      = kubeletConfigPathPfx.data ++ ("role".data ++ ['/']) := rfl
  have hslash : ("/" : String).data = ['/'] := rfl
  rw [strData_append, strData_append, strData_append, strData_append, h0, hslash] at hd
  simp only [List.append_assoc, List.singleton_append] at hd
  have hc := List.append_cancel_left hd
  have := append_cons_slash_inj (slashFree_notMem hr) (by decide) hc
  exact hrrole (strExt this.1)

/-! ### Step lemmas for the reconciliation fold -/

theorem saveConsistentStep_newRole (kcr : List (String × Content)) (w : List String)
    (key : String) (c : Content) (role node : String)
    (hrn : getRoleNodeNameFromDumpPath key = (role, node)) (hne : role ≠ "")
    (hnew : assocLookup kcr role = none) :
    saveConsistentStep (kcr, w) (key, c) = .ok (assocInsert kcr role c, w) := by
  simp [saveConsistentStep, hrn, hne, hnew]

theorem saveConsistentStep_consistent (kcr : List (String × Content)) (w : List String)
    (key : String) (c ex : Content) (role node : String)
    (hrn : getRoleNodeNameFromDumpPath key = (role, node)) (hne : role ≠ "")
    (hex : assocLookup kcr role = some ex)
    (heq : compareJSONNil ex c = .ok true) :
    saveConsistentStep (kcr, w) (key, c) = .ok (kcr, w) := by
  simp [saveConsistentStep, hrn, hne, hex, heq]

theorem saveConsistentStep_divergent (kcr : List (String × Content)) (w : List String)
    (key : String) (c ex ic : Content) (role node : String)
    (hrn : getRoleNodeNameFromDumpPath key = (role, node)) (hne : role ≠ "")
    (hex : assocLookup kcr role = some ex)
    (hneq : compareJSONNil ex c = .ok false)
    (hint : jsonIntersection ex c = .ok ic) :
    saveConsistentStep (kcr, w) (key, c) =
      .ok (assocInsert kcr role ic, w ++ [inconsistentWarning node role]) := by
  simp [saveConsistentStep, hrn, hne, hex, hneq, hint]

theorem saveRoleArtifacts_single (role : String) (c : Content)
    (res : List (String × Content)) (hrole : role ≠ "")
    (hkey : assocHasKey res (kubeletConfigRolePathPfx ++ role) = false) :
    saveRoleArtifacts [(role, c)] res = res ++ [(kubeletConfigRolePathPfx ++ role, c)] := by
  simp [saveRoleArtifacts, hrole, assocInsert_append_of_no_key _ _ _ hkey]

theorem assocLookup_saveRoleArtifacts (kcr : List (String × Content))
    (res : List (String × Content)) (k : String)
    (hk : strStartsWith k kubeletConfigRolePathPfx = false) :
    assocLookup (saveRoleArtifacts kcr res) k = assocLookup res k := by
  unfold saveRoleArtifacts
  induction kcr generalizing res with
  | nil => rfl
  | cons p rest ih =>
    rw [List.foldl_cons, ih]
    by_cases hp : p.1 = ""
    · rw [if_pos hp]
    · rw [if_neg hp, assocLookup_insert, if_neg ?hne]
      case hne =>
        intro he
        rw [he, strStartsWith_append] at hk
        cases hk

theorem foldlM_except_cons {σ α : Type} (f : σ → α → Except String σ)
    (b b' : σ) (a : α) (l : List α) (h : f b a = .ok b') :
    List.foldlM f b (a :: l) = List.foldlM f b' l := by
  rw [List.foldlM_cons, h]
  rfl

/-! ### Claim theorems: reconciliation -/

/-- Claim C2: folding three same-role node entries reporting A, A, B (B
differing from A exactly in the member maxPods) in that order makes the
first entry the baseline, leaves it untouched on the structurally equal
second entry, and on the divergent third entry emits exactly one warning
naming the divergent node and the role while replacing the baseline by the
structural intersection — A with maxPods removed; afterwards the single
role artifact is stored at the role-level key. -/
theorem saveConsistentKubeletResult_reconciliation
    (r n1 n2 n3 : String) (w0 : List String)
    (va vb : Json) (common : List (String × Json))
    (hr : slashFree r = true) (hrne : r ≠ "") (hrrole : r ≠ "role")
    (hn1 : slashFree n1 = true) (hn2 : slashFree n2 = true) (hn3 : slashFree n3 = true)
    (hnC : (common.map Prod.fst).Nodup) (hmp : "maxPods" ∉ common.map Prod.fst)
    (hrefl : ∀ p ∈ common, structEq p.2 p.2 = true)
    (hva : structEq va va = true) (hdiff : structEq va vb = false) :
    saveConsistentKubeletResult
      [(kubeletConfigPathPfx ++ r ++ "/" ++ n1, .json (.obj (("maxPods", va) :: common))),
       (kubeletConfigPathPfx ++ r ++ "/" ++ n2, .json (.obj (("maxPods", va) :: common))),
       (kubeletConfigPathPfx ++ r ++ "/" ++ n3, .json (.obj (("maxPods", vb) :: common)))]
      w0 =
    .ok ([(kubeletConfigPathPfx ++ r ++ "/" ++ n1, .json (.obj (("maxPods", va) :: common))),
          (kubeletConfigPathPfx ++ r ++ "/" ++ n2, .json (.obj (("maxPods", va) :: common))),
          (kubeletConfigPathPfx ++ r ++ "/" ++ n3, .json (.obj (("maxPods", vb) :: common)))]
         ++ [(kubeletConfigRolePathPfx ++ r, .json (.obj common))],
        w0 ++ [inconsistentWarning n3 r]) := by
  have hAA : compareJSONNil (.json (.obj (("maxPods", va) :: common)))
      (.json (.obj (("maxPods", va) :: common))) = .ok true := by
    have hself := structEq_obj_self (("maxPods", va) :: common)
      (by rw [List.map_cons]; exact List.nodup_cons.mpr ⟨hmp, hnC⟩)
      (by
        rintro p hp
        rcases List.mem_cons.mp hp with he | hmem
        · rw [he]; exact hva
        · exact hrefl p hmem)
    simp [compareJSONNil, decodeContent, hself]
  have hAB : compareJSONNil (.json (.obj (("maxPods", va) :: common)))
      (.json (.obj (("maxPods", vb) :: common))) = .ok false := by
    have h1 : structEqSub (("maxPods", va) :: common) (("maxPods", vb) :: common)
        = false := by
      simp [structEqSub, assocLookup_cons_self, hdiff]
    simp [compareJSONNil, decodeContent, structEq, h1]
  have hint : jsonIntersection (.json (.obj (("maxPods", va) :: common)))
      (.json (.obj (("maxPods", vb) :: common))) = .ok (.json (.obj common)) := by
    have h2 : jsonIntersectionJ (Json.obj (("maxPods", va) :: common))
        (Json.obj (("maxPods", vb) :: common)) = .ok (.obj common) := by
      have hhead : (match assocLookup (("maxPods", vb) :: common) (("maxPods", va) : String × Json).1 with
          | some w => structEq (("maxPods", va) : String × Json).2 w
          | none => false) = false := by
        simp [assocLookup_cons_self, hdiff]
      have htail : common.filter (fun p : String × Json =>
          match assocLookup (("maxPods", vb) :: common) p.1 with
          | some w => structEq p.2 w
          | none => false) = common := by
        rw [List.filter_eq_self]
        intro p hp
        have hne : ("maxPods", vb).1 ≠ p.1 := by
          intro he
          apply hmp
          rw [show ("maxPods" : String) = p.1 from he]
          exact List.mem_map_of_mem Prod.fst hp
        rw [assocLookup_cons_ne hne common, assocLookup_self_of_nodup_keys hnC hp]
        exact hrefl p hp
      show Except.ok (Json.obj (List.filter (fun p =>
          match assocLookup (("maxPods", vb) :: common) p.1 with
          | some w => structEq p.2 w
          | none => false) (("maxPods", va) :: common))) = _
      rw [List.filter_cons, hhead]
      simp [htail]
    simp only [jsonIntersection, decodeContent, h2]
    rfl
  have hrn1 := getRoleNodeName_kubelet r n1 hr hn1
  have hrn2 := getRoleNodeName_kubelet r n2 hr hn2
  have hrn3 := getRoleNodeName_kubelet r n3 hr hn3
  have hstep1 : saveConsistentStep ([], w0)
      (kubeletConfigPathPfx ++ r ++ "/" ++ n1, .json (.obj (("maxPods", va) :: common))) =
      .ok ([(r, .json (.obj (("maxPods", va) :: common)))], w0) := by
    rw [saveConsistentStep_newRole [] w0 _ _ r n1 hrn1 hrne rfl, assocInsert_nil]
  have hstep2 : saveConsistentStep
      ([(r, .json (.obj (("maxPods", va) :: common)))], w0)
      (kubeletConfigPathPfx ++ r ++ "/" ++ n2, .json (.obj (("maxPods", va) :: common))) =
      .ok ([(r, .json (.obj (("maxPods", va) :: common)))], w0) :=
    saveConsistentStep_consistent _ w0 _ _ _ r n2 hrn2 hrne
      (assocLookup_cons_self _ _ _) hAA
  have hstep3 : saveConsistentStep
      ([(r, .json (.obj (("maxPods", va) :: common)))], w0)
      (kubeletConfigPathPfx ++ r ++ "/" ++ n3, .json (.obj (("maxPods", vb) :: common))) =
      .ok ([(r, .json (.obj common))], w0 ++ [inconsistentWarning n3 r]) := by
    rw [saveConsistentStep_divergent _ w0 _ _ _ _ r n3 hrn3 hrne
      (assocLookup_cons_self _ _ _) hAB hint, assocInsert_single_self]
  have hnokey : assocHasKey
      [(kubeletConfigPathPfx ++ r ++ "/" ++ n1, Content.json (.obj (("maxPods", va) :: common))),
       (kubeletConfigPathPfx ++ r ++ "/" ++ n2, Content.json (.obj (("maxPods", va) :: common))),
       (kubeletConfigPathPfx ++ r ++ "/" ++ n3, Content.json (.obj (("maxPods", vb) :: common)))]
      (kubeletConfigRolePathPfx ++ r) = false := by
    unfold assocHasKey
    simp only [List.any_cons, List.any_nil, Bool.or_false]
    rw [decide_eq_false (nodeKey_ne_roleKey r n1 r hr hrrole),
      decide_eq_false (nodeKey_ne_roleKey r n2 r hr hrrole),
      decide_eq_false (nodeKey_ne_roleKey r n3 r hr hrrole)]
    rfl
  unfold saveConsistentKubeletResult
  rw [if_neg (by simp)]
  rw [foldlM_except_cons _ _ _ _ _ hstep1,
    foldlM_except_cons _ _ _ _ _ hstep2,
    foldlM_except_cons _ _ _ _ _ hstep3,
    List.foldlM_nil]
  show Except.ok (saveRoleArtifacts [(r, Content.json (.obj common))] _,
    w0 ++ [inconsistentWarning n3 r]) = _
  rw [saveRoleArtifacts_single r _ _ hrne hnokey]

/-- Witness for C2: role worker, nodes node-a/node-b/node-c reporting
A, A, B where B differs from A only in maxPods. -/
theorem saveConsistentKubeletResult_reconciliation_witness :
    saveConsistentKubeletResult
      [(kubeletConfigPathPfx ++ "worker" ++ "/" ++ "node-a",
        .json (.obj (("maxPods", Json.num 110) :: [("cpu", Json.str "2")]))),
       (kubeletConfigPathPfx ++ "worker" ++ "/" ++ "node-b",
        .json (.obj (("maxPods", Json.num 110) :: [("cpu", Json.str "2")]))),
       (kubeletConfigPathPfx ++ "worker" ++ "/" ++ "node-c",
        .json (.obj (("maxPods", Json.num 250) :: [("cpu", Json.str "2")])))]
      [] =
    .ok ([(kubeletConfigPathPfx ++ "worker" ++ "/" ++ "node-a",
           .json (.obj (("maxPods", Json.num 110) :: [("cpu", Json.str "2")]))),
          (kubeletConfigPathPfx ++ "worker" ++ "/" ++ "node-b",
           .json (.obj (("maxPods", Json.num 110) :: [("cpu", Json.str "2")]))),
          (kubeletConfigPathPfx ++ "worker" ++ "/" ++ "node-c",
           .json (.obj (("maxPods", Json.num 250) :: [("cpu", Json.str "2")])))]
         ++ [(kubeletConfigRolePathPfx ++ "worker", .json (.obj [("cpu", Json.str "2")]))],
        [] ++ [inconsistentWarning "node-c" "worker"]) :=
  saveConsistentKubeletResult_reconciliation "worker" "node-a" "node-b" "node-c" []
    (.num 110) (.num 250) [("cpu", .str "2")]
    (by decide) (by decide) (by decide) (by decide) (by decide) (by decide)
    (by decide) (by decide) (by decide) (by decide) (by decide)

/-- Claim C10 (amended): a successful saveConsistentKubeletResult adds or
overwrites only role-level entries (keys under the role prefix): the lookup
of every key outside the role-level namespace — including all node-level
kubelet-config entries — is unchanged from the input map.  Entries already
sitting at a role-level key can be overwritten (see the counterexample). -/
theorem saveConsistentKubeletResult_frame
    (result : List (String × Content)) (warning : List String)
    (out : List (String × Content)) (w' : List String)
    (hok : saveConsistentKubeletResult result warning = .ok (out, w'))
    (k : String) (hk : strStartsWith k kubeletConfigRolePathPfx = false) :
    assocLookup out k = assocLookup result k := by
  unfold saveConsistentKubeletResult at hok
  by_cases hemp : result.isEmpty
  · rw [if_pos hemp] at hok
    simp only [Except.ok.injEq, Prod.mk.injEq] at hok
    rw [← hok.1]
  · rw [if_neg hemp] at hok
    cases hfold : result.foldlM saveConsistentStep ([], warning) with
    | error e =>
      rw [hfold] at hok
      cases hok
    | ok folded =>
      rw [hfold] at hok
      simp only [Except.ok.injEq, Prod.mk.injEq] at hok
      rw [← hok.1]
      exact assocLookup_saveRoleArtifacts folded.1 result k hk

def resW10 : List (String × Content) :=
  [("/kubeletconfig/master/n1", .raw "x")]

def outW10 : List (String × Content) :=
  [("/kubeletconfig/master/n1", .raw "x"), ("/kubeletconfig/role/master", .raw "x")]

/-- Witness for C10 (amended): the node-level entry survives reconciliation
unchanged. -/
theorem saveConsistentKubeletResult_frame_witness :
    assocLookup outW10 "/kubeletconfig/master/n1" =
      assocLookup resW10 "/kubeletconfig/master/n1" :=
  saveConsistentKubeletResult_frame resW10 [] outW10 [] rfl
    "/kubeletconfig/master/n1" (by decide)

def resC10 : List (String × Content) :=
  [("/kubeletconfig/master/n1", .raw "x"), ("/kubeletconfig/role/master", .raw "y")]

def outC10 : List (String × Content) :=
  [("/kubeletconfig/master/n1", .raw "x"), ("/kubeletconfig/role/master", .raw "x"),
   ("/kubeletconfig/role/role", .raw "y")]

/-- Counterexample to C10 as stated: an entry already stored at the
role-level key /kubeletconfig/role/master does not remain in the map with
its bytes unchanged — the reconciliation pass overwrites it with the folded
artifact of role master (that input entry itself is folded as a node-level
entry of role "role" and re-emitted at /kubeletconfig/role/role). -/
theorem saveConsistentKubeletResult_overwrite_counterexample :
    assocLookup resC10 "/kubeletconfig/role/master" = some (Content.raw "y") ∧
    saveConsistentKubeletResult resC10 [] = .ok (outC10, []) ∧
    assocLookup outC10 "/kubeletconfig/role/master" = some (Content.raw "x") ∧
    Content.raw "x" ≠ Content.raw "y" := by
  refine ⟨rfl, rfl, rfl, ?_⟩
  intro h
  injection h with h'
  exact absurd h' (by decide)
